import Mathlib

/-!
Verification development for the denser-agent repository.

The Python source keeps its state in insertion-ordered dictionaries
(`self.servers`, `self.tools`, `health_status`, `all_tools`).  We embed a
dictionary as an association list `List (String × α)` together with the two
operations the source uses: keyed lookup and last-writer-wins insertion that
replaces an existing binding in place (exactly the semantics of `d[k] = v`
on a Python dict).  Network effects (`httpx` GETs and POSTs) are embedded as
explicit oracle functions from the request URL to an `Except` outcome, where
`Except.error` models a raised exception (timeout, connection error,
`raise_for_status`, malformed payload).
-/

namespace DenserAgent

/-- Keyed lookup in an insertion-ordered dictionary (`k in d` / `d[k]`). -/
def dictLookup {α : Type} (k : String) : List (String × α) → Option α
  | [] => none
  | (q, v) :: rest => if q = k then some v else dictLookup k rest

/-- Python dict assignment `d[k] = v`: replaces the first (unique) binding of
`k` in place, or appends a fresh binding at the end. -/
def dictInsert {α : Type} (k : String) (v : α) : List (String × α) → List (String × α)
  | [] => [(k, v)]
  | (q, w) :: rest => if q = k then (k, v) :: rest else (q, w) :: dictInsert k v rest

/-- One configured MCP server, as stored by `load_configuration` /
`add_server`: name, base URL, the three endpoint paths, description. -/
structure Server where
  name : String
  base_url : String
  listTools : String
  callTool : String
  health : String
  description : String
deriving Repr, DecidableEq

/-- A tool entry as returned by a server before tagging (`name`,
`description`, `inputSchema` fields of the listTools payload). -/
structure RawTool where
  name : String
  description : String
  inputSchema : String
deriving Repr, DecidableEq

/-- A catalog entry: a raw tool tagged by `_get_server_tools` with
`server_name` and `server_url`. -/
structure Tool where
  name : String
  description : String
  inputSchema : String
  server_name : String
  server_url : String
deriving Repr, DecidableEq

/-- The `MCPToolsManager` state: the provider registry `self.servers` and the
tool catalog `self.tools`. -/
structure Manager where
  servers : List (String × Server)
  tools : List (String × Tool)
deriving Repr, DecidableEq

/-- Network oracle for GET on a listTools URL: the tool list of the provider,
or a raised exception. -/
def ListNet : Type := String → Except String (List RawTool)

/-- Network oracle for POST on a callTool URL with payload
`(name, arguments)`: the list of text contents of the response envelope
(`result.content[i].text`), or a raised exception. -/
def PostNet : Type := String → String → List (String × String) → Except String (List String)

/-- Network oracle for GET on a health URL: the HTTP status code, or a raised
exception (timeout, connection error). -/
def ProbeNet : Type := String → Except String Nat

/-- Tool-call argument mapping (string-keyed, as used by the dispatcher). -/
def Args : Type := List (String × String)

instance : DecidableEq Args := by
  unfold Args
  infer_instance

instance : Repr Args := by
  unfold Args
  infer_instance

def listToolsUrl (s : Server) : String := s.base_url ++ s.listTools

def callToolUrl (s : Server) : String := s.base_url ++ s.callTool

def healthUrl (s : Server) : String := s.base_url ++ s.health

/-- `MCPToolsManager._get_server_tools`: fetch the tool list of one server and
tag each entry with the server name and URL; a failed fetch is a raised
exception (`Except.error`). -/
def get_server_tools (net : ListNet) (s : Server) : Except String (List Tool) :=
  match net (listToolsUrl s) with
  | Except.error e => Except.error e
  | Except.ok raws =>
      Except.ok (raws.map fun r =>
        { name := r.name, description := r.description, inputSchema := r.inputSchema,
          server_name := s.name, server_url := s.base_url })

/-- The per-server registration loop of `discover_tools`:
`for tool in tools: self.tools[tool.name] = tool`. -/
def registerTools (ts : List Tool) (cat : List (String × Tool)) : List (String × Tool) :=
  ts.foldl (fun d t => dictInsert t.name t d) cat

/-- The `for server_name, server in self.servers.items()` loop of
`discover_tools`: on success the fetched tools are merged into the catalog and
recorded in `all_tools`; on failure the catalog is untouched and `all_tools`
gets an empty list for that server. -/
def discoverLoop (net : ListNet) :
    List (String × Server) → List (String × Tool) → List (String × List Tool) →
    List (String × Tool) × List (String × List Tool)
  | [], cat, allTools => (cat, allTools)
  | (sname, srv) :: rest, cat, allTools =>
    match get_server_tools net srv with
    | Except.ok ts => discoverLoop net rest (registerTools ts cat) (dictInsert sname ts allTools)
    | Except.error _ => discoverLoop net rest cat (dictInsert sname [] allTools)

/-- `MCPToolsManager.discover_tools`: returns the updated manager (the catalog
`self.tools` is merged into, never cleared) and the local `all_tools` dict. -/
def discover_tools (net : ListNet) (m : Manager) : Manager × List (String × List Tool) :=
  let p := discoverLoop net m.servers m.tools []
  ({ m with tools := p.1 }, p.2)

/-- The tools contributed by one discovery pass, in registration order:
concatenation over servers of the tagged tool lists of the servers whose fetch
succeeded (a failed server contributes nothing). -/
def passTools (net : ListNet) : List (String × Server) → List Tool
  | [] => []
  | (_, srv) :: rest =>
    (match get_server_tools net srv with
     | Except.ok ts => ts
     | Except.error _ => []) ++ passTools net rest

/-- The last tool named `k` in a registration sequence (last writer wins). -/
def lastNamed (k : String) : List Tool → Option Tool
  | [] => none
  | t :: ts =>
    match lastNamed k ts with
    | some u => some u
    | none => if t.name = k then some t else none

/-- Overlay of a discovery pass over the previous catalog at one key. -/
def overlay (o : Option Tool) (old : Option Tool) : Option Tool :=
  match o with
  | some t => some t
  | none => old

theorem dictLookup_insert {α : Type} (k q : String) (v : α) (d : List (String × α)) :
    dictLookup q (dictInsert k v d) = if k = q then some v else dictLookup q d := by
  induction d with
  | nil => simp [dictInsert, dictLookup]
  | cons hd tl ih =>
    obtain ⟨a, w⟩ := hd
    by_cases hak : a = k
    · subst hak
      by_cases haq : a = q
      · subst haq
        simp [dictInsert, dictLookup]
      · simp [dictInsert, dictLookup, haq]
    · by_cases haq : a = q
      · subst haq
        have : ¬ k = a := fun h => hak h.symm
        simp [dictInsert, dictLookup, hak, this]
      · simp [dictInsert, dictLookup, hak, haq, ih]

theorem dictLookup_none_iff {α : Type} (k : String) (d : List (String × α)) :
    dictLookup k d = none ↔ k ∉ d.map Prod.fst := by
  induction d with
  | nil => simp [dictLookup]
  | cons hd tl ih =>
    obtain ⟨a, w⟩ := hd
    by_cases hak : a = k
    · subst hak
      simp [dictLookup]
    · have hka : ¬ k = a := fun h => hak h.symm
      simp only [dictLookup, hak, if_false, List.map_cons, List.mem_cons]
      rw [ih]
      constructor
      · intro h hmem
        rcases hmem with h1 | h2
        · exact hka h1
        · exact h h2
      · intro h hmem
        exact h (Or.inr hmem)

theorem dictInsert_fresh {α : Type} (k : String) (v : α) (d : List (String × α))
    (h : k ∉ d.map Prod.fst) : dictInsert k v d = d ++ [(k, v)] := by
  induction d with
  | nil => simp [dictInsert]
  | cons hd tl ih =>
    obtain ⟨a, w⟩ := hd
    simp only [List.map_cons, List.mem_cons] at h
    push_neg at h
    have hak : ¬ a = k := fun hh => h.1 hh.symm
    simp [dictInsert, hak, ih h.2]

theorem dictInsert_keys_of_some {α : Type} (k : String) (v w : α) (d : List (String × α))
    (h : dictLookup k d = some v) :
    (dictInsert k w d).map Prod.fst = d.map Prod.fst := by
  induction d with
  | nil => simp [dictLookup] at h
  | cons hd tl ih =>
    obtain ⟨a, u⟩ := hd
    by_cases hak : a = k
    · subst hak
      simp [dictInsert]
    · simp only [dictLookup, hak, if_false] at h
      simp [dictInsert, hak, ih h]

theorem dictInsert_nodup {α : Type} (k : String) (v : α) (d : List (String × α))
    (h : (d.map Prod.fst).Nodup) : ((dictInsert k v d).map Prod.fst).Nodup := by
  cases hlk : dictLookup k d with
  | some w => rw [dictInsert_keys_of_some k w v d hlk]; exact h
  | none =>
    have hmem := (dictLookup_none_iff k d).mp hlk
    rw [dictInsert_fresh k v d hmem]
    simp only [List.map_append, List.map_cons, List.map_nil]
    rw [List.nodup_append]
    refine ⟨h, List.nodup_singleton _, ?_⟩
    intro a ha hb
    simp only [List.mem_singleton] at hb
    subst hb
    exact hmem ha

theorem registerTools_append (a b : List Tool) (cat : List (String × Tool)) :
    registerTools (a ++ b) cat = registerTools b (registerTools a cat) := by
  simp [registerTools, List.foldl_append]

theorem registerTools_lookup (k : String) (ts : List Tool) (cat : List (String × Tool)) :
    dictLookup k (registerTools ts cat) = overlay (lastNamed k ts) (dictLookup k cat) := by
  induction ts generalizing cat with
  | nil => simp [registerTools, lastNamed, overlay]
  | cons t ts ih =>
    have hstep : registerTools (t :: ts) cat = registerTools ts (dictInsert t.name t cat) := rfl
    rw [hstep, ih, dictLookup_insert]
    cases hl : lastNamed k ts with
    | some u => simp [lastNamed, overlay, hl]
    | none =>
      by_cases htk : t.name = k
      · simp [lastNamed, overlay, hl, htk]
      · simp [lastNamed, overlay, hl, htk]

theorem registerTools_keys (ts : List Tool) (cat : List (String × Tool))
    (h : ∀ t ∈ ts, (dictLookup t.name cat).isSome) :
    (registerTools ts cat).map Prod.fst = cat.map Prod.fst := by
  induction ts generalizing cat with
  | nil => simp [registerTools]
  | cons t ts ih =>
    have hstep : registerTools (t :: ts) cat = registerTools ts (dictInsert t.name t cat) := rfl
    have ht : (dictLookup t.name cat).isSome := h t (List.mem_cons_self t ts)
    obtain ⟨v, hv⟩ := Option.isSome_iff_exists.mp ht
    rw [hstep, ih (dictInsert t.name t cat) ?_, dictInsert_keys_of_some t.name v t cat hv]
    intro u hu
    rw [dictLookup_insert]
    by_cases hn : t.name = u.name
    · simp [hn]
    · simp only [hn, if_false]
      exact h u (List.mem_cons_of_mem t hu)

theorem registerTools_nodup (ts : List Tool) (cat : List (String × Tool))
    (h : (cat.map Prod.fst).Nodup) : ((registerTools ts cat).map Prod.fst).Nodup := by
  induction ts generalizing cat with
  | nil => simpa [registerTools] using h
  | cons t ts ih =>
    have hstep : registerTools (t :: ts) cat = registerTools ts (dictInsert t.name t cat) := rfl
    rw [hstep]
    exact ih _ (dictInsert_nodup t.name t cat h)

theorem lastNamed_isSome_of_mem (t : Tool) (ts : List Tool) (h : t ∈ ts) :
    (lastNamed t.name ts).isSome := by
  induction ts with
  | nil => cases h
  | cons u ts ih =>
    rcases List.mem_cons.mp h with heq | hmem
    · subst heq
      cases hl : lastNamed t.name ts with
      | some w => simp [lastNamed, hl]
      | none => simp [lastNamed, hl]
    · have := ih hmem
      obtain ⟨w, hw⟩ := Option.isSome_iff_exists.mp this
      simp [lastNamed, hw]

theorem discoverLoop_tools (net : ListNet) (ss : List (String × Server))
    (cat : List (String × Tool)) (allTools : List (String × List Tool)) :
    (discoverLoop net ss cat allTools).1 = registerTools (passTools net ss) cat := by
  induction ss generalizing cat allTools with
  | nil => simp [discoverLoop, passTools, registerTools]
  | cons hd rest ih =>
    obtain ⟨sname, srv⟩ := hd
    cases hg : get_server_tools net srv with
    | ok ts => simp [discoverLoop, passTools, hg, ih, registerTools_append]
    | error e => simp [discoverLoop, passTools, hg, ih]

theorem discover_tools_servers (net : ListNet) (m : Manager) :
    (discover_tools net m).1.servers = m.servers := rfl

theorem discover_tools_tools (net : ListNet) (m : Manager) :
    (discover_tools net m).1.tools = registerTools (passTools net m.servers) m.tools := by
  simp [discover_tools, discoverLoop_tools]

/-- Extensionality for association lists: same key sequence plus same lookups
(with no duplicate keys) forces equality. -/
theorem assocExt {α : Type} :
    ∀ (d₁ d₂ : List (String × α)), (d₁.map Prod.fst).Nodup →
      d₁.map Prod.fst = d₂.map Prod.fst →
      (∀ k, dictLookup k d₁ = dictLookup k d₂) → d₁ = d₂ := by
  intro d₁
  induction d₁ with
  | nil =>
    intro d₂ _ hk _
    cases d₂ with
    | nil => rfl
    | cons hd tl => simp at hk
  | cons hd tl ih =>
    intro d₂ hnd hk hl
    cases d₂ with
    | nil => simp at hk
    | cons hd₂ tl₂ =>
      obtain ⟨k, v⟩ := hd
      obtain ⟨k₂, v₂⟩ := hd₂
      simp only [List.map_cons, List.cons.injEq] at hk
      obtain ⟨hkk, hktl⟩ := hk
      subst hkk
      have hv : v = v₂ := by
        have := hl k
        simp [dictLookup] at this
        exact this
      subst hv
      simp only [List.map_cons, List.nodup_cons] at hnd
      have htl : ∀ q, dictLookup q tl = dictLookup q tl₂ := by
        intro q
        by_cases hq : k = q
        · subst hq
          have h1 : dictLookup k tl = none := (dictLookup_none_iff k tl).mpr hnd.1
          have h2 : dictLookup k tl₂ = none := by
            rw [dictLookup_none_iff]
            rw [← hktl]
            exact hnd.1
          rw [h1, h2]
        · have := hl q
          have hkq : ¬ k = q := hq
          simpa [dictLookup, hkq] using this
      rw [ih tl₂ hnd.2 hktl htl]

/-- The health bit computed by `check_servers_health` for one server:
`response.status_code == 200` on a completed probe, `false` when the probe
raises (timeout, connection error). -/
def healthBool : Except String Nat → Bool
  | Except.ok code => code == 200
  | Except.error _ => false

/-- The `for server_name, server in self.servers.items()` loop of
`check_servers_health`, accumulating into the local `health_status` dict. -/
def healthLoop (probe : ProbeNet) :
    List (String × Server) → List (String × Bool) → List (String × Bool)
  | [], acc => acc
  | (sname, srv) :: rest, acc =>
      healthLoop probe rest (dictInsert sname (healthBool (probe (healthUrl srv))) acc)

/-- `MCPToolsManager.check_servers_health`. -/
def check_servers_health (probe : ProbeNet) (m : Manager) : List (String × Bool) :=
  healthLoop probe m.servers []

theorem healthLoop_eq (probe : ProbeNet) (ss : List (String × Server))
    (acc : List (String × Bool)) (hnd : (ss.map Prod.fst).Nodup)
    (hfresh : ∀ s ∈ ss.map Prod.fst, s ∉ acc.map Prod.fst) :
    healthLoop probe ss acc
      = acc ++ ss.map (fun p => (p.1, healthBool (probe (healthUrl p.2)))) := by
  induction ss generalizing acc with
  | nil => simp [healthLoop]
  | cons hd rest ih =>
    obtain ⟨sname, srv⟩ := hd
    simp only [List.map_cons, List.nodup_cons] at hnd
    have hs : sname ∉ acc.map Prod.fst := by
      exact hfresh sname (by simp)
    have hins : dictInsert sname (healthBool (probe (healthUrl srv))) acc
        = acc ++ [(sname, healthBool (probe (healthUrl srv)))] :=
      dictInsert_fresh _ _ _ hs
    have hfresh2 : ∀ s ∈ rest.map Prod.fst,
        s ∉ (acc ++ [(sname, healthBool (probe (healthUrl srv)))]).map Prod.fst := by
      intro s hsr
      simp only [List.map_append, List.map_cons, List.map_nil, List.mem_append,
        List.mem_singleton]
      push_neg
      refine ⟨hfresh s (by simp [hsr]), ?_⟩
      intro hcontra
      exact hnd.1 (hcontra ▸ hsr)
    calc healthLoop probe ((sname, srv) :: rest) acc
        = healthLoop probe rest (acc ++ [(sname, healthBool (probe (healthUrl srv)))]) := by
          simp [healthLoop, hins]
      _ = acc ++ [(sname, healthBool (probe (healthUrl srv)))]
            ++ rest.map (fun p => (p.1, healthBool (probe (healthUrl p.2)))) :=
          ih _ hnd.2 hfresh2
      _ = acc ++ ((sname, srv) :: rest).map (fun p => (p.1, healthBool (probe (healthUrl p.2)))) := by
          simp

theorem dictLookup_of_mem_nodup {α : Type} (k : String) (v : α) (l : List (String × α))
    (hnd : (l.map Prod.fst).Nodup) (hmem : (k, v) ∈ l) : dictLookup k l = some v := by
  induction l with
  | nil => cases hmem
  | cons hd tl ih =>
    obtain ⟨a, w⟩ := hd
    simp only [List.map_cons, List.nodup_cons] at hnd
    rcases List.mem_cons.mp hmem with heq | hmem2
    · cases heq
      simp [dictLookup]
    · have hak : ¬ a = k := by
        intro h
        subst h
        exact hnd.1 (List.mem_map_of_mem Prod.fst hmem2)
      simp only [dictLookup, hak, if_false]
      exact ih hnd.2 hmem2

/-- An exception escaping the dispatcher.  The only uncaught exception in
`call_tool` is the `KeyError` raised by `self.servers[tool.server_name]` when
the owning provider is absent from the registry (the lookup sits outside the
try block). -/
inductive PyError where
  | keyError (k : String)
deriving Repr, DecidableEq

/-- Python `str(e)` for the modelled exception. -/
def pyStr : PyError → String
  | PyError.keyError k => k

/-- The miss message of `call_tool`, enumerating the current catalog keys
(`list(self.tools.keys())` joined with a comma). -/
def missMessage (tool_name : String) (available : List String) : String :=
  "❌ Tool " ++ tool_name ++ " not found. Available tools: "
    ++ String.intercalate ", " available

/-- The caught-exception message of `call_tool` and of the `call_mcp_tool`
wrapper: the tool name followed by the raw exception text. -/
def callErrorMessage (tool_name : String) (e : String) : String :=
  "❌ Error calling " ++ tool_name ++ ": " ++ e

/-- `MCPToolsManager.call_tool`.  A miss returns the descriptive failure; a
hit resolves the owning provider with a bare dict subscript — outside the try
block, so an absent provider raises `KeyError` (`Except.error`).  The network
POST and the extraction `result.content[0].text` sit inside the try block:
any failure there is converted to a textual error result. -/
def call_tool (post : PostNet) (m : Manager) (tool_name : String) (arguments : Args) :
    Except PyError String :=
  match dictLookup tool_name m.tools with
  | none => Except.ok (missMessage tool_name (m.tools.map Prod.fst))
  | some tool =>
    match dictLookup tool.server_name m.servers with
    | none => Except.error (PyError.keyError tool.server_name)
    | some server =>
      match post (callToolUrl server) tool_name arguments with
      | Except.error e => Except.ok (callErrorMessage tool_name e)
      | Except.ok texts =>
        match texts with
        | [] => Except.ok (callErrorMessage tool_name "list index out of range")
        | t :: _ => Except.ok t

/-- `base_agent.call_mcp_tool`: wraps the dispatcher and converts any raised
exception into a text result carrying `str(e)`. -/
def call_mcp_tool (post : PostNet) (m : Manager) (tool_name : String) (arguments : Args) :
    String :=
  match call_tool post m tool_name arguments with
  | Except.ok r => r
  | Except.error e => callErrorMessage tool_name (pyStr e)

/-- Claim C6: after a completed health-check pass the snapshot maps each
provider registered at the start of the pass to exactly one boolean entry —
the snapshot key sequence is exactly the registry key sequence, and each
registered provider maps to `healthBool` of its probe outcome (status 200 ↦
`true`; any raised probe or non-200 status ↦ `false`, never absent). -/
theorem health_snapshot_complete (probe : ProbeNet) (m : Manager)
    (hnd : (m.servers.map Prod.fst).Nodup) :
    (check_servers_health probe m).map Prod.fst = m.servers.map Prod.fst
    ∧ ∀ p srv, (p, srv) ∈ m.servers →
        dictLookup p (check_servers_health probe m)
          = some (healthBool (probe (healthUrl srv))) := by
  have heq : check_servers_health probe m
      = m.servers.map (fun p => (p.1, healthBool (probe (healthUrl p.2)))) := by
    have := healthLoop_eq probe m.servers [] hnd (by simp)
    simpa [check_servers_health] using this
  constructor
  · rw [heq]
    rw [List.map_map]
    rfl
  · intro p srv hmem
    rw [heq]
    apply dictLookup_of_mem_nodup
    · rw [List.map_map]
      exact hnd
    · exact List.mem_map_of_mem (fun q => (q.1, healthBool (probe (healthUrl q.2)))) hmem

/-- Claim C7: for a tool name not in the catalog, `call_tool` returns (never
raises) the descriptive failure enumerating the current catalog keys, and the
result is the same for every network oracle — no network call is consulted. -/
theorem unknown_tool_failure (post : PostNet) (m : Manager) (n : String) (a : Args)
    (h : dictLookup n m.tools = none) :
    call_tool post m n a = Except.ok (missMessage n (m.tools.map Prod.fst))
    ∧ ∀ post2 : PostNet, call_tool post2 m n a = call_tool post m n a := by
  constructor
  · simp [call_tool, h]
  · intro post2
    simp [call_tool, h]

/-- Concrete fixture: a configured server named `s`. -/
def fxServer : Server :=
  { name := "s", base_url := "http://s", listTools := "/list", callTool := "/call",
    health := "/health", description := "demo" }

/-- Concrete fixture: the catalog entry for tool `t` owned by server `s`. -/
def fxTool : Tool :=
  { name := "t", description := "d", inputSchema := "obj", server_name := "s",
    server_url := "http://s" }

/-- Concrete fixture: a catalog entry whose recorded owner `gone` is not in
the registry. -/
def fxToolGone : Tool :=
  { name := "t", description := "d", inputSchema := "obj", server_name := "gone",
    server_url := "http://gone" }

/-- Concrete fixture: consistent manager with one server and one tool. -/
def fxManager : Manager := { servers := [("s", fxServer)], tools := [("t", fxTool)] }

/-- Concrete fixture: manager whose catalog names an owner absent from the
registry. -/
def fxManagerInc : Manager := { servers := [], tools := [("t", fxToolGone)] }

/-- Concrete fixture: registry holds only `s`, catalog holds a stale entry of
the departed provider `gone`. -/
def fxManagerStale : Manager := { servers := [("s", fxServer)], tools := [("t", fxToolGone)] }

/-- Concrete fixture: manager with one server and an empty catalog. -/
def fxManagerFresh : Manager := { servers := [("s", fxServer)], tools := [] }

/-- Concrete fixture: every listTools fetch raises. -/
def fxNetFail : ListNet := fun _ => Except.error "connection refused"

/-- Concrete fixture: server `s` lists one tool `t`; everything else raises. -/
def fxNetOne : ListNet := fun u =>
  if u = "http://s/list" then Except.ok [{ name := "t", description := "d", inputSchema := "obj" }]
  else Except.error "404"

/-- Concrete fixture: every tool POST succeeds with one text content item. -/
def fxPost : PostNet := fun _ _ _ => Except.ok ["## Tables"]

/-- Concrete fixture: every tool POST succeeds with an empty text payload. -/
def fxPostEmpty : PostNet := fun _ _ _ => Except.ok [""]

/-- Concrete fixture: every health probe raises (timeout). -/
def fxProbeDown : ProbeNet := fun _ => Except.error "timeout"

/-- Concrete fixture: `s` probes healthy, everything else times out. -/
def fxProbeMixed : ProbeNet := fun u =>
  if u = "http://s/health" then Except.ok 200 else Except.error "timeout"

/-- Witness for claim C6 at a concrete registry and probe outcome. -/
theorem health_snapshot_complete_witness :
    (fxManager.servers.map Prod.fst).Nodup
    ∧ ((check_servers_health fxProbeDown fxManager).map Prod.fst
        = fxManager.servers.map Prod.fst
      ∧ ∀ p srv, (p, srv) ∈ fxManager.servers →
          dictLookup p (check_servers_health fxProbeDown fxManager)
            = some (healthBool (fxProbeDown (healthUrl srv)))) :=
  ⟨by simp [fxManager], health_snapshot_complete fxProbeDown fxManager (by simp [fxManager])⟩

/-- Witness for claim C7 at a concrete catalog and unknown name. -/
theorem unknown_tool_failure_witness :
    dictLookup "nope" fxManager.tools = none
    ∧ (call_tool fxPost fxManager "nope" [] = Except.ok (missMessage "nope" ["t"])
      ∧ ∀ post2 : PostNet, call_tool post2 fxManager "nope" [] = call_tool fxPost fxManager "nope" []) :=
  ⟨rfl, (unknown_tool_failure fxPost fxManager "nope" [] rfl).1 ▸
    ⟨rfl, (unknown_tool_failure fxPost fxManager "nope" [] rfl).2⟩⟩

/-- Claim C2 amended: when the tool name is in the catalog but its recorded
owner is absent from the registry, `call_tool` does not return the miss-class
failure — it raises a `KeyError` carrying the missing provider name, because
the registry subscript sits outside the try block. -/
theorem call_tool_inconsistency_raises (post : PostNet) (m : Manager) (n : String)
    (a : Args) (t : Tool) (h1 : dictLookup n m.tools = some t)
    (h2 : dictLookup t.server_name m.servers = none) :
    call_tool post m n a = Except.error (PyError.keyError t.server_name) := by
  simp [call_tool, h1, h2]

/-- Witness for claim C2 (amended) at the concrete inconsistent manager. -/
theorem call_tool_inconsistency_raises_witness :
    dictLookup "t" fxManagerInc.tools = some fxToolGone
    ∧ dictLookup fxToolGone.server_name fxManagerInc.servers = none
    ∧ call_tool fxPost fxManagerInc "t" [] = Except.error (PyError.keyError fxToolGone.server_name) :=
  ⟨rfl, rfl, call_tool_inconsistency_raises fxPost fxManagerInc "t" [] fxToolGone rfl rfl⟩

/-- Counterexample to claim C2 as stated: at this concrete state the tool is
in the catalog, its owner is missing from the registry, and the dispatcher
raises (`isOk = false`) rather than returning any descriptive failure text. -/
theorem call_tool_inconsistency_counterexample :
    dictLookup "t" fxManagerInc.tools = some fxToolGone
    ∧ dictLookup "gone" fxManagerInc.servers = none
    ∧ call_tool fxPost fxManagerInc "t" [] = Except.error (PyError.keyError "gone")
    ∧ (call_tool fxPost fxManagerInc "t" []).isOk = false :=
  ⟨rfl, rfl, rfl, rfl⟩

/-- Claim C1 amended: a discovery pass does not replace the catalog — it
overlays it.  The registry is unchanged; at every key the new catalog holds
the last tool of that name contributed by a provider that succeeded on this
pass, and otherwise the previous binding, so stale entries (including those
of failed or departed providers) persist. -/
theorem discovery_merges_catalog (net : ListNet) (m : Manager) :
    (discover_tools net m).1.servers = m.servers
    ∧ ∀ k, dictLookup k (discover_tools net m).1.tools
        = overlay (lastNamed k (passTools net m.servers)) (dictLookup k m.tools) := by
  constructor
  · rfl
  · intro k
    rw [discover_tools_tools, registerTools_lookup]

/-- Counterexample to claim C1 as stated: the only registered provider fails
the pass and the stale entry is owned by the departed provider `gone`, yet
after the pass the catalog still contains that entry (the claim requires an
empty catalog here). -/
theorem discovery_stale_entry_counterexample :
    get_server_tools fxNetFail fxServer = Except.error "connection refused"
    ∧ dictLookup "gone" fxManagerStale.servers = none
    ∧ (discover_tools fxNetFail fxManagerStale).1.tools = [("t", fxToolGone)]
    ∧ dictLookup "t" (discover_tools fxNetFail fxManagerStale).1.tools = some fxToolGone :=
  ⟨rfl, rfl, rfl, rfl⟩

theorem overlay_absorb (o x : Option Tool) : overlay o (overlay o x) = overlay o x := by
  cases o <;> simp [overlay]

theorem managerEq (a b : Manager) (h1 : a.servers = b.servers) (h2 : a.tools = b.tools) :
    a = b := by
  cases a
  cases b
  simp_all

theorem registerTools_twice (ts : List Tool) (cat : List (String × Tool))
    (hnd : (cat.map Prod.fst).Nodup) :
    registerTools ts (registerTools ts cat) = registerTools ts cat := by
  apply assocExt
  · exact registerTools_nodup ts _ (registerTools_nodup ts cat hnd)
  · apply registerTools_keys
    intro t ht
    rw [registerTools_lookup]
    obtain ⟨u, hu⟩ := Option.isSome_iff_exists.mp (lastNamed_isSome_of_mem t ts ht)
    simp [overlay, hu]
  · intro k
    rw [registerTools_lookup, registerTools_lookup, overlay_absorb]

/-- Claim C9: discovery is idempotent — with an unchanged registry and
unchanged provider responses, a second discovery pass leaves the manager
(catalog and registry) literally identical to the state after the first
pass. -/
theorem discovery_idempotent (net : ListNet) (m : Manager)
    (hnd : (m.tools.map Prod.fst).Nodup) :
    (discover_tools net ((discover_tools net m).1)).1 = (discover_tools net m).1 := by
  apply managerEq
  · rw [discover_tools_servers, discover_tools_servers]
  · rw [discover_tools_tools ]
    rw [discover_tools_servers, discover_tools_tools]
    exact registerTools_twice (passTools net m.servers) m.tools hnd

/-- Witness for claim C9 at a concrete one-server registry whose provider
lists one tool. -/
theorem discovery_idempotent_witness :
    (fxManagerFresh.tools.map Prod.fst).Nodup
    ∧ (discover_tools fxNetOne ((discover_tools fxNetOne fxManagerFresh).1)).1
        = (discover_tools fxNetOne fxManagerFresh).1 :=
  ⟨by simp [fxManagerFresh], discovery_idempotent fxNetOne fxManagerFresh (by simp [fxManagerFresh])⟩

/-- A chat message (role-tagged), passed through to the LLM untouched. -/
structure Msg where
  role : String
  content : String
deriving Repr, DecidableEq

/-- One content item of an LLM response (`content.type` is `tool_use`,
`text`, or anything else, which the loop ignores). -/
inductive ContentItem where
  | text (s : String)
  | toolUse (name : String) (input : Args)
  | other (tag : String)
deriving Repr, DecidableEq

/-- A tool formatted for the LLM by `get_all_tools_for_llm` (Anthropic
shape). -/
structure LlmTool where
  name : String
  description : String
  input_schema : String
deriving Repr, DecidableEq

/-- The reasoning-trace object built in the tool branch. -/
structure ReasoningStep where
  type : String
  header : String
  content : String
deriving Repr, DecidableEq

/-- The response envelope of `handle_chat_with_tools` (absent dict keys are
`none`). -/
structure ChatResponse where
  success : Bool
  message : String
  reasoning_step : Option ReasoningStep
  chart_data : Option String
deriving Repr, DecidableEq

/-- Effect log of one chat turn: the message list of each LLM request issued,
and each dispatcher invocation performed for an LLM tool decision. -/
structure TurnTrace where
  llmCalls : List (List Msg)
  toolCalls : List (String × Args)
deriving Repr, DecidableEq

/-- Oracle for `client.messages.create`: system prompt, messages, tools ↦
the response content items, or a raised exception. -/
def LlmOracle : Type := String → List Msg → List LlmTool → Except String (List ContentItem)

/-- Oracle for the out-of-scope `generate_chart_data` utility: chart payload,
`none` for a falsy result, or a raised exception. -/
def ChartOracle : Type := String → Except String (Option String)

/-- Python slicing `xs[-n:]`.  Note the quirk embedded faithfully: `-0 == 0`,
so `xs[-0:]` is the whole list, not the last zero elements. -/
def pySliceLast {α : Type} (n : Nat) (xs : List α) : List α :=
  if n = 0 then xs else xs.drop (xs.length - n)

/-- The truncation step of `handle_chat_with_tools`:
`if len(messages) > max_turns: messages = messages[-max_turns:]`.  The slice
builds a new list; the caller-supplied list is not mutated. -/
def truncate_turns (max_turns : Nat) (messages : List Msg) : List Msg :=
  if messages.length > max_turns then pySliceLast max_turns messages else messages

/-- The content partition loop: scan the items in order, remembering the last
tool-use item and the last text item (later items overwrite earlier ones). -/
def scanContent (items : List ContentItem) : Option (String × Args) × Option String :=
  items.foldl
    (fun acc item =>
      match item with
      | ContentItem.toolUse n i => (some (n, i), acc.2)
      | ContentItem.text s => (acc.1, some s)
      | ContentItem.other _ => acc)
    (none, none)

/-- The schema portion of the system prompt. -/
def schemaContext (schemas : List (String × String)) : String :=
  if schemas.isEmpty then ""
  else "\n\nDatabase Schema:\n"
    ++ String.join (schemas.map fun p => "\nTable: " ++ p.1 ++ "\n" ++ p.2 ++ "\n")

/-- The system prompt assembled by `handle_chat_with_tools`. -/
def systemPrompt (tool_names : List String) (schemas : List (String × String)) : String :=
  "You are a customer support assistant with access to tools. ALWAYS use the appropriate tool for user requests.\n\nAvailable tools: "
    ++ String.intercalate ", " tool_names
    ++ schemaContext schemas
    ++ "\n\nIMPORTANT:\n- For weather questions use get_current_weather, get_weather_forecast, or get_weather_alerts\n- For database queries use execute_query, describe_table, list_tables, or get_table_data\n- For meeting requests use schedule_meeting\n\nWhen a user asks about weather, database data, or meetings, you MUST call the appropriate tool. Do not just explain what you would do - actually use the tools."

/-- `MCPToolsManager.get_all_tools_for_llm`: runs one more discovery pass,
then formats the whole catalog in registration order, prefixing each
description with the owning server in brackets. -/
def get_all_tools_for_llm (net : ListNet) (m : Manager) : Manager × List LlmTool :=
  let md := (discover_tools net m).1
  (md, md.tools.map fun p =>
    { name := p.2.name,
      description := "[" ++ p.2.server_name ++ "] " ++ p.2.description,
      input_schema := p.2.inputSchema })

/-- The database-tool classification of the reasoning step
(`name.startswith(("execute_", "describe_", "list_", "get_table"))`). -/
def isDatabaseToolName (n : String) : Bool :=
  n.startsWith "execute_" || n.startsWith "describe_" || n.startsWith "list_"
    || n.startsWith "get_table"

/-- Rendering of the tool arguments inside the reasoning step. -/
def argsRepr (args : Args) : String :=
  String.intercalate ", " (args.map fun p => p.1 ++ ": " ++ p.2)

/-- The reasoning step recorded for an executed tool. -/
def mkReasoningStep (n : String) (i : Args) : ReasoningStep :=
  { type := "tool",
    header := (if isDatabaseToolName n then "Database" else "Tool") ++ " Operation",
    content := "**Tool:** " ++ n ++ "\n**Args:** " ++ argsRepr i }

/-- The tools whose results feed the chart utility
(`name in [execute_query, get_table_data]`). -/
def chartEligible (n : String) : Bool :=
  n == "execute_query" || n == "get_table_data"

/-- The fixed fallback envelope returned when the LLM produced neither a
usable tool result nor text. -/
def greetingResponse : ChatResponse :=
  { success := true,
    message := "Hello! I can help with database queries, weather, and meeting scheduling.",
    reasoning_step := none, chart_data := none }

/-- The fixed envelope of the missing-API-key early return. -/
def noKeyResponse : ChatResponse :=
  { success := false, message := "Claude API key not configured",
    reasoning_step := none, chart_data := none }

/-- The fixed generic apology of the top-level exception handler of
`handle_chat_with_tools`. -/
def apologyResponse : ChatResponse :=
  { success := false, message := "Sorry, I encountered an error. Please try again.",
    reasoning_step := none, chart_data := none }

/-- The part of the turn after the LLM reply: prioritize the tool-use item;
run the dispatcher once; a truthy result becomes the message (with reasoning
step and, for chart-eligible tools, chart data), a falsy result falls through
to the greeting; with no tool-use item, a text item is returned verbatim,
otherwise the greeting.  Returns the envelope (or a raised exception of the
chart utility) plus the dispatcher invocations performed. -/
def respond_to_content (post : PostNet) (chartGen : ChartOracle) (m2 : Manager)
    (items : List ContentItem) : Except String ChatResponse × List (String × Args) :=
  match scanContent items with
  | (some (n, i), _) =>
    let tool_result := call_mcp_tool post m2 n i
    if tool_result = "" then (Except.ok greetingResponse, [(n, i)])
    else
      match (if chartEligible n then chartGen tool_result else Except.ok none) with
      | Except.error e => (Except.error e, [(n, i)])
      | Except.ok chart =>
        (Except.ok { success := true, message := tool_result,
                     reasoning_step := some (mkReasoningStep n i), chart_data := chart },
         [(n, i)])
  | (none, some t) =>
    (Except.ok { success := true, message := t, reasoning_step := none, chart_data := none }, [])
  | (none, none) => (Except.ok greetingResponse, [])

/-- The body of `handle_chat_with_tools` up to (but excluding) its top-level
`except` handler: truncate, check the API key, rediscover, fetch the LLM
tool formats, call the LLM, then process the content.  `Except.error` is an
exception about to reach the top-level handler.  The schema cache
`self.table_schemas` is passed in as the state left by `_get_table_schemas`
(that helper swallows its own failures). -/
def handle_chat_body (net : ListNet) (post : PostNet) (llm : LlmOracle)
    (chartGen : ChartOracle) (max_turns : Nat) (apiKey : Option String)
    (schemas : List (String × String)) (m : Manager) (messages : List Msg) :
    Except String ChatResponse × TurnTrace :=
  let msgs := truncate_turns max_turns messages
  match apiKey with
  | none => (Except.ok noKeyResponse, { llmCalls := [], toolCalls := [] })
  | some _ =>
    let m1 := (discover_tools net m).1
    let p := get_all_tools_for_llm net m1
    match llm (systemPrompt (p.2.map LlmTool.name) schemas) msgs p.2 with
    | Except.error e => (Except.error e, { llmCalls := [msgs], toolCalls := [] })
    | Except.ok items =>
      let pr := respond_to_content post chartGen p.1 items
      (pr.1, { llmCalls := [msgs], toolCalls := pr.2 })

/-- `CustomerSupportAgentApp.handle_chat_with_tools`: the body wrapped in the
top-level `except Exception` handler, which converts any escaped exception
into the fixed apology envelope. -/
def handle_chat_with_tools (net : ListNet) (post : PostNet) (llm : LlmOracle)
    (chartGen : ChartOracle) (max_turns : Nat) (apiKey : Option String)
    (schemas : List (String × String)) (m : Manager) (messages : List Msg) :
    ChatResponse × TurnTrace :=
  match handle_chat_body net post llm chartGen max_turns apiKey schemas m messages with
  | (Except.ok r, tr) => (r, tr)
  | (Except.error _, tr) => (apologyResponse, tr)

/-- An HTTPException value (status code and detail text). -/
structure HTTPExc where
  status : Nat
  detail : String
deriving Repr, DecidableEq

/-- What the chat endpoint hands to the HTTP layer: either the envelope of
`handle_chat_with_tools`, or an error response produced from a raised
HTTPException. -/
inductive EndpointResult where
  | response (r : ChatResponse)
  | httpError (status : Nat) (detail : String)
deriving Repr, DecidableEq

def EndpointResult.isResponse : EndpointResult → Bool
  | EndpointResult.response _ => true
  | EndpointResult.httpError _ _ => false

/-- The try-block of `chat_endpoint` in `base_agent.setup_routes`: reject an
empty conversation, probe all providers, refuse when none is healthy, and
otherwise delegate to `handle_chat_with_tools`.  `Except.error` is the
HTTPException raised inside the try-block. -/
def chat_endpoint_body (probe : ProbeNet) (net : ListNet) (post : PostNet)
    (llm : LlmOracle) (chartGen : ChartOracle) (max_turns : Nat) (apiKey : Option String)
    (schemas : List (String × String)) (m : Manager) (messages : List Msg) :
    Except HTTPExc (ChatResponse × TurnTrace) :=
  if messages.isEmpty then Except.error { status := 400, detail := "No messages provided" }
  else if (check_servers_health probe m).any (fun p => p.2) then
    Except.ok (handle_chat_with_tools net post llm chartGen max_turns apiKey schemas m messages)
  else Except.error { status := 500, detail := "MCP servers unavailable" }

/-- The whole `chat_endpoint` handler: its `except Exception` clause catches
every exception raised in the try-block — including the endpoint's own
HTTPExceptions — and raises a fresh generic 500 in their place, so the
original detail text never reaches the client. -/
def chat_endpoint (probe : ProbeNet) (net : ListNet) (post : PostNet)
    (llm : LlmOracle) (chartGen : ChartOracle) (max_turns : Nat) (apiKey : Option String)
    (schemas : List (String × String)) (m : Manager) (messages : List Msg) :
    EndpointResult × TurnTrace :=
  match chat_endpoint_body probe net post llm chartGen max_turns apiKey schemas m messages with
  | Except.ok (r, tr) => (EndpointResult.response r, tr)
  | Except.error _ =>
    (EndpointResult.httpError 500 "Sorry, I encountered an error.",
     { llmCalls := [], toolCalls := [] })

/-- Concrete fixture: a one-message conversation. -/
def fxMsg : Msg := { role := "user", content := "hi" }

/-- Concrete fixture: an eight-message conversation. -/
def fxMsgs8 : List Msg :=
  [{ role := "user", content := "m1" }, { role := "assistant", content := "m2" },
   { role := "user", content := "m3" }, { role := "assistant", content := "m4" },
   { role := "user", content := "m5" }, { role := "assistant", content := "m6" },
   { role := "user", content := "m7" }, { role := "user", content := "m8" }]

/-- Concrete fixture: the LLM replies with text only. -/
def fxLlmText : LlmOracle := fun _ _ _ => Except.ok [ContentItem.text "Hello"]

/-- Concrete fixture: the LLM replies with a tool-use item and a text item. -/
def fxLlmBoth : LlmOracle := fun _ _ _ =>
  Except.ok [ContentItem.toolUse "t" [], ContentItem.text "hello"]

/-- Concrete fixture: the LLM replies with a tool-use item only. -/
def fxLlmTool : LlmOracle := fun _ _ _ => Except.ok [ContentItem.toolUse "t" []]

/-- Concrete fixture: the LLM call raises. -/
def fxLlmBoom : LlmOracle := fun _ _ _ => Except.error "boom"

/-- Concrete fixture: the chart utility returns a falsy value. -/
def fxChart : ChartOracle := fun _ => Except.ok none

theorem handle_trace_eq_body_trace (net : ListNet) (post : PostNet) (llm : LlmOracle)
    (chartGen : ChartOracle) (max_turns : Nat) (apiKey : Option String)
    (schemas : List (String × String)) (m : Manager) (messages : List Msg) :
    (handle_chat_with_tools net post llm chartGen max_turns apiKey schemas m messages).2
      = (handle_chat_body net post llm chartGen max_turns apiKey schemas m messages).2 := by
  unfold handle_chat_with_tools
  cases h : handle_chat_body net post llm chartGen max_turns apiKey schemas m messages with
  | mk a b => cases a <;> simp

theorem body_llmCalls (net : ListNet) (post : PostNet) (llm : LlmOracle)
    (chartGen : ChartOracle) (max_turns : Nat) (key : String)
    (schemas : List (String × String)) (m : Manager) (messages : List Msg) :
    (handle_chat_body net post llm chartGen max_turns (some key) schemas m messages).2.llmCalls
      = [truncate_turns max_turns messages] := by
  unfold handle_chat_body
  split
  · rename_i heq
    exact Option.noConfusion heq
  · dsimp only
    split <;> simp

/-- Claim C5 amended: for a conversation longer than a positive configured
maximum N, the turn sends the LLM exactly the last N messages of the input,
in order; the slice is a fresh list, so the original conversation still
decomposes as its dropped prefix followed by the sent part.  (For N = 0 the
claim fails: Python `messages[-0:]` is the whole list — see the
counterexample.) -/
theorem turn_truncation (net : ListNet) (post : PostNet) (llm : LlmOracle)
    (chartGen : ChartOracle) (N : Nat) (key : String)
    (schemas : List (String × String)) (m : Manager) (messages : List Msg)
    (h0 : 0 < N) (hlen : messages.length > N) :
    truncate_turns N messages = messages.drop (messages.length - N)
    ∧ (messages.drop (messages.length - N)).length = N
    ∧ messages.take (messages.length - N) ++ messages.drop (messages.length - N) = messages
    ∧ (handle_chat_with_tools net post llm chartGen N (some key) schemas m messages).2.llmCalls
        = [messages.drop (messages.length - N)] := by
  have hN : ¬ N = 0 := Nat.pos_iff_ne_zero.mp h0
  have ht : truncate_turns N messages = messages.drop (messages.length - N) := by
    simp [truncate_turns, pySliceLast, hlen, hN]
  refine ⟨ht, ?_, ?_, ?_⟩
  · rw [List.length_drop]
    omega
  · exact List.take_append_drop _ _
  · rw [handle_trace_eq_body_trace, body_llmCalls, ht]

/-- Witness for claim C5 (amended): eight messages, maximum five — the LLM
receives exactly the last five and the original list is the dropped three
followed by those five. -/
theorem turn_truncation_witness :
    (0 < 5 ∧ fxMsgs8.length > 5)
    ∧ (truncate_turns 5 fxMsgs8 = fxMsgs8.drop 3
      ∧ (fxMsgs8.drop 3).length = 5
      ∧ fxMsgs8.take 3 ++ fxMsgs8.drop 3 = fxMsgs8
      ∧ (handle_chat_with_tools fxNetFail fxPost fxLlmText fxChart 5 (some "k") [] fxManager fxMsgs8).2.llmCalls
          = [fxMsgs8.drop 3]) :=
  ⟨⟨by decide, by decide⟩,
    turn_truncation fxNetFail fxPost fxLlmText fxChart 5 "k" [] fxManager fxMsgs8
      (by decide) (by decide)⟩

/-- Counterexample to claim C5 as stated: with a configured maximum of 0 and
a one-message conversation (longer than 0), the LLM receives the whole
conversation — not the last zero messages — because Python `messages[-0:]`
is the full list. -/
theorem turn_truncation_counterexample :
    ([fxMsg].length > 0)
    ∧ (handle_chat_with_tools fxNetFail fxPost fxLlmText fxChart 0 (some "k") [] fxManager [fxMsg]).2.llmCalls
        = [[fxMsg]]
    ∧ ([fxMsg] : List Msg) ≠ [] :=
  ⟨by decide, rfl, by simp⟩

/-- Claim C4 amended: when the LLM response carries both a tool-use item and
a text item, the loop gives the tool priority — it invokes the dispatcher
exactly once and, provided the tool result is nonempty (and the chart step
completes), the envelope message is exactly that tool result; the text item
(universally quantified here, absent from the conclusion) never reaches the
envelope.  For an empty tool result the envelope is the fixed greeting
instead — see the counterexample. -/
theorem tool_use_priority (net : ListNet) (post : PostNet) (llm : LlmOracle)
    (chartGen : ChartOracle) (N : Nat) (key : String) (schemas : List (String × String))
    (m : Manager) (messages : List Msg) (items : List ContentItem) (n : String)
    (i : Args) (tx : String) (r : String) (copt : Option String)
    (hllm : llm (systemPrompt ((get_all_tools_for_llm net (discover_tools net m).1).2.map LlmTool.name) schemas)
              (truncate_turns N messages)
              (get_all_tools_for_llm net (discover_tools net m).1).2
            = Except.ok items)
    (hscan : scanContent items = (some (n, i), some tx))
    (hcall : call_mcp_tool post (get_all_tools_for_llm net (discover_tools net m).1).1 n i = r)
    (hr : r ≠ "")
    (hchart : (if chartEligible n then chartGen r else Except.ok none) = Except.ok copt) :
    handle_chat_with_tools net post llm chartGen N (some key) schemas m messages
      = ({ success := true, message := r,
           reasoning_step := some (mkReasoningStep n i), chart_data := copt },
         { llmCalls := [truncate_turns N messages], toolCalls := [(n, i)] }) := by
  have hbody : handle_chat_body net post llm chartGen N (some key) schemas m messages
      = (Except.ok { success := true, message := r,
                     reasoning_step := some (mkReasoningStep n i), chart_data := copt },
         { llmCalls := [truncate_turns N messages], toolCalls := [(n, i)] }) := by
    unfold handle_chat_body
    dsimp only
    rw [hllm]
    dsimp only
    unfold respond_to_content
    rw [hscan]
    dsimp only
    rw [hcall, if_neg hr, hchart]
  unfold handle_chat_with_tools
  rw [hbody]

/-- Witness for claim C4 (amended) at a concrete turn: tool-use plus text in
the LLM reply, a nonempty dispatcher result, envelope message equal to that
result, one dispatcher invocation, and no trace of the text item. -/
theorem tool_use_priority_witness :
    scanContent [ContentItem.toolUse "t" [], ContentItem.text "hello"]
      = (some ("t", ([] : Args)), some "hello")
    ∧ call_mcp_tool fxPost fxManager "t" [] = "## Tables"
    ∧ handle_chat_with_tools fxNetFail fxPost fxLlmBoth fxChart 5 (some "k") [] fxManager [fxMsg]
      = ({ success := true, message := "## Tables",
           reasoning_step := some (mkReasoningStep "t" []), chart_data := none },
         { llmCalls := [[fxMsg]], toolCalls := [("t", ([] : Args))] }) :=
  ⟨rfl, rfl,
    tool_use_priority fxNetFail fxPost fxLlmBoth fxChart 5 "k" [] fxManager [fxMsg]
      [ContentItem.toolUse "t" [], ContentItem.text "hello"] "t" [] "hello" "## Tables" none
      rfl rfl rfl (by decide) rfl⟩

/-- Counterexample to claim C4 as stated: both a tool-use item and a text
item are present, the dispatcher returns the empty string, and the envelope
message is the fixed greeting — not the tool result. -/
theorem tool_use_priority_counterexample :
    scanContent [ContentItem.toolUse "t" [], ContentItem.text "hello"]
      = (some ("t", ([] : Args)), some "hello")
    ∧ call_mcp_tool fxPostEmpty fxManager "t" [] = ""
    ∧ (handle_chat_with_tools fxNetFail fxPostEmpty fxLlmBoth fxChart 5 (some "k") [] fxManager [fxMsg]).1
        = greetingResponse
    ∧ greetingResponse.message ≠ "" :=
  ⟨rfl, rfl, rfl, by decide⟩

/-- Claim C10: a tool-use item whose dispatcher result is the empty (falsy)
string yields the fixed greeting envelope with success true; neither the
empty tool result nor any accompanying text item (quantified as `tx`, absent
from the conclusion) is returned, and the tool was still invoked exactly
once. -/
theorem empty_tool_result_greeting (net : ListNet) (post : PostNet) (llm : LlmOracle)
    (chartGen : ChartOracle) (N : Nat) (key : String) (schemas : List (String × String))
    (m : Manager) (messages : List Msg) (items : List ContentItem) (n : String)
    (i : Args) (tx : Option String)
    (hllm : llm (systemPrompt ((get_all_tools_for_llm net (discover_tools net m).1).2.map LlmTool.name) schemas)
              (truncate_turns N messages)
              (get_all_tools_for_llm net (discover_tools net m).1).2
            = Except.ok items)
    (hscan : scanContent items = (some (n, i), tx))
    (hcall : call_mcp_tool post (get_all_tools_for_llm net (discover_tools net m).1).1 n i = "") :
    handle_chat_with_tools net post llm chartGen N (some key) schemas m messages
      = (greetingResponse,
         { llmCalls := [truncate_turns N messages], toolCalls := [(n, i)] }) := by
  have hbody : handle_chat_body net post llm chartGen N (some key) schemas m messages
      = (Except.ok greetingResponse,
         { llmCalls := [truncate_turns N messages], toolCalls := [(n, i)] }) := by
    unfold handle_chat_body
    dsimp only
    rw [hllm]
    dsimp only
    unfold respond_to_content
    rw [hscan]
    dsimp only
    rw [hcall]
    simp
  unfold handle_chat_with_tools
  rw [hbody]

/-- Witness for claim C10 at a concrete turn: tool-use plus text, empty
dispatcher result, greeting envelope with success true, one dispatcher
invocation. -/
theorem empty_tool_result_greeting_witness :
    call_mcp_tool fxPostEmpty fxManager "t" [] = ""
    ∧ handle_chat_with_tools fxNetFail fxPostEmpty fxLlmBoth fxChart 5 (some "k") [] fxManager [fxMsg]
      = (greetingResponse, { llmCalls := [[fxMsg]], toolCalls := [("t", ([] : Args))] })
    ∧ greetingResponse.success = true :=
  ⟨rfl,
    empty_tool_result_greeting fxNetFail fxPostEmpty fxLlmBoth fxChart 5 "k" [] fxManager
      [fxMsg] [ContentItem.toolUse "t" [], ContentItem.text "hello"] "t" [] (some "hello")
      rfl rfl rfl,
    rfl⟩

/-- Claim C8 amended: every failure that propagates to the top-level handler
of the turn (the LLM call or the chart step raising) yields the fixed
success-false apology envelope, whatever the exception text was; nothing is
re-raised to the caller.  A failure the dispatcher wrapper has already
converted to a result string is not covered — see the counterexample, where a
dispatcher exception surfaces with success true and its raw text in the
message. -/
theorem toplevel_failure_apology (net : ListNet) (post : PostNet) (llm : LlmOracle)
    (chartGen : ChartOracle) (N : Nat) (apiKey : Option String)
    (schemas : List (String × String)) (m : Manager) (messages : List Msg)
    (e : String) (tr : TurnTrace)
    (h : handle_chat_body net post llm chartGen N apiKey schemas m messages
          = (Except.error e, tr)) :
    handle_chat_with_tools net post llm chartGen N apiKey schemas m messages
      = (apologyResponse, tr)
    ∧ apologyResponse.success = false
    ∧ apologyResponse.message = "Sorry, I encountered an error. Please try again." := by
  refine ⟨?_, rfl, rfl⟩
  unfold handle_chat_with_tools
  rw [h]

/-- Witness for claim C8 (amended): a raising LLM oracle produces the apology
envelope. -/
theorem toplevel_failure_apology_witness :
    handle_chat_body fxNetFail fxPost fxLlmBoom fxChart 5 (some "k") [] fxManager [fxMsg]
      = (Except.error "boom", { llmCalls := [[fxMsg]], toolCalls := [] })
    ∧ handle_chat_with_tools fxNetFail fxPost fxLlmBoom fxChart 5 (some "k") [] fxManager [fxMsg]
      = (apologyResponse, { llmCalls := [[fxMsg]], toolCalls := [] }) :=
  ⟨rfl,
    (toplevel_failure_apology fxNetFail fxPost fxLlmBoom fxChart 5 (some "k") [] fxManager
      [fxMsg] "boom" { llmCalls := [[fxMsg]], toolCalls := [] } rfl).1⟩

/-- Counterexample to claim C8 as stated: a dispatcher exception (the
registry KeyError) is raised inside the turn, yet the turn returns success
true with the exception text embedded in the message — not the success-false
generic apology. -/
theorem dispatcher_error_not_apology_counterexample :
    call_tool fxPost fxManagerInc "t" [] = Except.error (PyError.keyError "gone")
    ∧ (handle_chat_with_tools fxNetFail fxPost fxLlmTool fxChart 5 (some "k") [] fxManagerInc [fxMsg]).1.success
        = true
    ∧ (handle_chat_with_tools fxNetFail fxPost fxLlmTool fxChart 5 (some "k") [] fxManagerInc [fxMsg]).1.message
        = callErrorMessage "t" "gone"
    ∧ callErrorMessage "t" "gone" ≠ apologyResponse.message :=
  ⟨rfl, rfl, rfl, by decide⟩

/-- Claim C3 amended: when every registered provider probes unhealthy, the
endpoint short-circuits before any LLM contact — the try-block raises the
500 service-unavailable HTTPException, the catch-all swallows it, and the
client receives a generic 500 error response (not a success-false envelope,
and not the service-unavailable text); the turn trace is empty. -/
theorem all_unhealthy_short_circuits (probe : ProbeNet) (net : ListNet) (post : PostNet)
    (llm : LlmOracle) (chartGen : ChartOracle) (N : Nat) (apiKey : Option String)
    (schemas : List (String × String)) (m : Manager) (messages : List Msg)
    (hne : messages ≠ [])
    (hall : (check_servers_health probe m).any (fun p => p.2) = false) :
    chat_endpoint_body probe net post llm chartGen N apiKey schemas m messages
      = Except.error { status := 500, detail := "MCP servers unavailable" }
    ∧ chat_endpoint probe net post llm chartGen N apiKey schemas m messages
      = (EndpointResult.httpError 500 "Sorry, I encountered an error.",
         { llmCalls := [], toolCalls := [] }) := by
  have hempty : messages.isEmpty = false := by
    cases messages with
    | nil => exact absurd rfl hne
    | cons hd tl => rfl
  have hb : chat_endpoint_body probe net post llm chartGen N apiKey schemas m messages
      = Except.error { status := 500, detail := "MCP servers unavailable" } := by
    simp [chat_endpoint_body, hempty, hall]
  refine ⟨hb, ?_⟩
  unfold chat_endpoint
  rw [hb]

/-- Witness for claim C3 (amended) at a concrete all-unhealthy registry. -/
theorem all_unhealthy_short_circuits_witness :
    (([fxMsg] : List Msg) ≠ []
      ∧ (check_servers_health fxProbeDown fxManager).any (fun p => p.2) = false)
    ∧ (chat_endpoint_body fxProbeDown fxNetFail fxPost fxLlmText fxChart 5 (some "k") [] fxManager [fxMsg]
        = Except.error { status := 500, detail := "MCP servers unavailable" }
      ∧ chat_endpoint fxProbeDown fxNetFail fxPost fxLlmText fxChart 5 (some "k") [] fxManager [fxMsg]
        = (EndpointResult.httpError 500 "Sorry, I encountered an error.",
           { llmCalls := [], toolCalls := [] })) :=
  ⟨⟨by simp, rfl⟩,
    all_unhealthy_short_circuits fxProbeDown fxNetFail fxPost fxLlmText fxChart 5 (some "k") []
      fxManager [fxMsg] (by simp) rfl⟩

/-- Counterexample to claim C3 as stated: with every provider unhealthy, the
endpoint result is an HTTP error response with the generic detail — no
success-false envelope is produced, and the service-unavailable text is not
what the client receives; the empty trace shows the LLM was never
contacted. -/
theorem all_unhealthy_counterexample :
    check_servers_health fxProbeDown fxManager = [("s", false)]
    ∧ chat_endpoint fxProbeDown fxNetFail fxPost fxLlmText fxChart 5 (some "k") [] fxManager [fxMsg]
      = (EndpointResult.httpError 500 "Sorry, I encountered an error.",
         { llmCalls := [], toolCalls := [] })
    ∧ (chat_endpoint fxProbeDown fxNetFail fxPost fxLlmText fxChart 5 (some "k") [] fxManager [fxMsg]).1.isResponse
        = false
    ∧ ("Sorry, I encountered an error." : String) ≠ "MCP servers unavailable" :=
  ⟨rfl, rfl, rfl, by decide⟩

end DenserAgent
